import Mathlib

/-!
Verification of the VLM command-extraction service
(`src/Tools/VLMService/vlm.py`).

The development shallowly embeds the core of the service:

* a model of Python/JSON runtime values (`PyVal`), of Python truthiness, and
  of the builtin `float(...)` conversion, including its string grammar;
* `is_vector` and `validate_payload`, translated from the source, together
  with exception-monad variants (`is_vectorE`, `validate_payloadE`) that make
  the potentially raising operations (`d[k]` subscripts, `float(...)`)
  explicit so that totality of the validator is a theorem rather than a
  typing accident;
* `request_with_validation`, the retry orchestrator, parameterized by the
  external completion capability (`ollama.chat` wrapped in a worker pool with
  a deadline, modelled as a stream of per-call outcomes) and by the external
  JSON parser (`json.loads`, modelled as a function argument), since both are
  libraries outside this repository;
* a small store-of-lists heap model used to state that the orchestrator
  works on a deep copy of the conversation it receives and never mutates the
  list object handed in by the caller.

Divergences of the model from CPython, none of which are exercised by the
statements below: `str.lower` only lowercases ASCII letters; `str.strip`
only strips ASCII whitespace; `float(str)` does not accept non-ASCII
digits and returns exact rational values (IEEE-754 rounding and the
overflow of huge literals to infinity are elided); arbitrary-precision
`int` never overflows `float(...)`.
-/

/-- Model of a Python float for the purposes of this service: the code never
does float arithmetic, it only asks whether `float(v)` succeeds, so a float
is a finite rational or one of the special values. -/
inductive PyFloat where
  | finite (q : Rat)
  | inf
  | negInf
  | nan
deriving DecidableEq

/-- Model of the Python / JSON runtime values that can reach the validator:
everything `json.loads` can produce. Dictionaries are insertion-ordered
association lists with (by construction of `json.loads`) unique string keys. -/
inductive PyVal where
  | vNone
  | vBool (b : Bool)
  | vInt (n : Int)
  | vFloat (f : PyFloat)
  | vStr (s : String)
  | vList (xs : List PyVal)
  | vDict (xs : List (String × PyVal))

/-- Python exceptions that the embedded operations can raise. -/
inductive PyExc where
  | typeError
  | valueError
  | keyError (k : String)
deriving DecidableEq

/-- Model of `d.get(k)`: the value under `k`, or `None` when absent. -/
def dget (d : List (String × PyVal)) (k : String) : PyVal :=
  (d.lookup k).getD .vNone

/-- Model of `d[k] = v` on a dict: replaces the value at an existing key in
place (keeping its position), appends a fresh key at the end. -/
def dset (d : List (String × PyVal)) (k : String) (v : PyVal) :
    List (String × PyVal) :=
  match d with
  | [] => [(k, v)]
  | (k1, v1) :: rest =>
      if k1 = k then (k, v) :: rest else (k1, v1) :: dset rest k v

/-- Model of `d.keys()` as a list of keys. -/
def keyList (d : List (String × PyVal)) : List String := d.map Prod.fst

/-- Model of Python truthiness (`bool(v)`), as used by `if not command` and
`if not payload.get(...)` in the source. -/
def pyTruthy : PyVal → Bool
  | .vNone => false
  | .vBool b => b
  | .vInt n => decide (n ≠ 0)
  | .vFloat f =>
      match f with
      | .finite q => decide (q ≠ 0)
      | _ => true
  | .vStr s => decide (s ≠ "")
  | .vList xs => !xs.isEmpty
  | .vDict xs => !xs.isEmpty

/-- ASCII lower-casing, the model of Python `str.lower()` on the ASCII
command names this service manipulates. -/
def pyLower (s : String) : String := String.mk (s.data.map Char.toLower)

/-- The whitespace characters stripped by Python `str.strip()` (ASCII part). -/
def isPyWS (c : Char) : Bool :=
  c = ' ' || c = '\t' || c = '\n' || c = '\r' || c = '\x0b' || c = '\x0c'

/-- Model of Python `str.strip()`: drop leading and trailing whitespace. -/
def pyStrip (s : String) : String :=
  String.mk (((((s.data.dropWhile isPyWS).reverse).dropWhile isPyWS).reverse))

/-- Digit-group scanner for the `float(str)` grammar: consumes a run of
decimal digits in which a single underscore may stand between two digits,
returning the accumulated value, the number of digits consumed, and the rest
of the input. The caller guarantees the input starts with a digit. -/
def digitsAux : List Char → Nat → Nat → Nat × Nat × List Char
  | [], acc, cnt => (acc, cnt, [])
  | '_' :: c :: rest, acc, cnt =>
      if c.isDigit then digitsAux rest (acc * 10 + (c.toNat - 48)) (cnt + 1)
      else (acc, cnt, '_' :: c :: rest)
  | c :: rest, acc, cnt =>
      if c.isDigit then digitsAux rest (acc * 10 + (c.toNat - 48)) (cnt + 1)
      else (acc, cnt, c :: rest)

/-- Head-is-a-decimal-digit test. -/
def headDigit : List Char → Bool
  | c :: _ => c.isDigit
  | [] => false

/-- Exact rational value of a parsed float literal
`sign * (intPart.fracPart) * 10 ^ exp` where `fracCnt` is the number of
fraction digits. -/
def floatLitVal (sign : Int) (intPart fracPart fracCnt : Nat) (exp : Int) :
    Rat :=
  (sign : Rat) * ((intPart : Rat) + (fracPart : Rat) / ((10 : Rat) ^ fracCnt))
    * (10 : Rat) ^ exp

/-- Parser for the numeric (non inf/nan) part of the `float(str)` grammar:
`digitpart? [. digitpart?] [e [sign] digitpart]` with at least one mantissa
digit and nothing left over. The input is already lower-cased. -/
def parseNumChars (sign : Int) (l : List Char) : Option PyFloat :=
  let ipr := if headDigit l then digitsAux l 0 0 else (0, 0, l)
  let fpr :=
    match ipr.2.2 with
    | '.' :: r => if headDigit r then digitsAux r 0 0 else (0, 0, r)
    | other => (0, 0, other)
  if ipr.2.1 + fpr.2.1 = 0 then none
  else
    match fpr.2.2 with
    | [] => some (.finite (floatLitVal sign ipr.1 fpr.1 fpr.2.1 0))
    | 'e' :: r =>
        let esr : Int × List Char :=
          match r with
          | '+' :: r1 => (1, r1)
          | '-' :: r1 => (-1, r1)
          | other1 => (1, other1)
        if headDigit esr.2 then
          let er := digitsAux esr.2 0 0
          if er.2.2 = [] then
            some (.finite (floatLitVal sign ipr.1 fpr.1 fpr.2.1
              (esr.1 * (er.1 : Int))))
          else none
        else none
    | _ => none

/-- Model of Python `float(s)` on a string: strip whitespace, lower-case,
then an optional sign followed by `inf`, `infinity`, `nan`, or a numeric
literal. `none` models a raised `ValueError`. -/
def pyFloatOfString (s : String) : Option PyFloat :=
  let l := (pyStrip s).data.map Char.toLower
  let sl : Int × List Char :=
    match l with
    | '+' :: r => (1, r)
    | '-' :: r => (-1, r)
    | other => (1, other)
  if sl.2 = "inf".data ∨ sl.2 = "infinity".data then
    some (if sl.1 = 1 then .inf else .negInf)
  else if sl.2 = "nan".data then some .nan
  else parseNumChars sl.1 sl.2

/-- Model of the builtin `float(v)` conversion: succeeds on bools, ints,
floats and float-parseable strings, raises `TypeError` on `None`, lists and
dicts, `ValueError` on non-numeric strings. -/
def floatE : PyVal → Except PyExc PyFloat
  | .vBool b => .ok (.finite (if b then 1 else 0))
  | .vInt n => .ok (.finite (n : Rat))
  | .vFloat f => .ok f
  | .vStr s =>
      match pyFloatOfString s with
      | some f => .ok f
      | none => .error .valueError
  | .vNone => .error .typeError
  | .vList _ => .error .typeError
  | .vDict _ => .error .typeError

/-- Whether `float(v)` succeeds. -/
def pyFloatable (v : PyVal) : Bool :=
  match floatE v with
  | .ok _ => true
  | .error _ => false

/-- Model of `required_keys.issubset(value.keys())` for `x`, `y`, `z`. -/
def hasXYZ (d : List (String × PyVal)) : Bool :=
  (keyList d).contains "x" && (keyList d).contains "y"
    && (keyList d).contains "z"

/-- Translation of `is_vector` (vlm.py lines 40-52): a dict whose keys
include `x`, `y`, `z` and on which `float(value[k])` succeeds for each of
the three axes. -/
def is_vector (value : PyVal) : Bool :=
  match value with
  | .vDict d =>
      if hasXYZ d then
        pyFloatable (dget d "x") && pyFloatable (dget d "y")
          && pyFloatable (dget d "z")
      else false
  | _ => false

/-- The command allow-list `ALLOWED_COMMANDS` (vlm.py lines 22-37; the
commented-out entries of the source set are omitted there as here). -/
def ALLOWED_COMMANDS : List String :=
  ["spawn_object", "delete_object", "translate_mesh", "rotate_mesh"]

/-- The validation diagnostics returned by `validate_payload`, one
constructor per literal message of the source; the variable part of the
message (the offending command name) is carried as data. -/
inductive Diag where
  | notAnObject
  | missingCommand
  | unknownCommand (command : String)
  | spawnRequiresPrimitiveType
  | deleteRequiresObjectName
  | translateRequiresVector
  | rotateRequiresVector
deriving DecidableEq

/-- Translation of `validate_payload` (vlm.py lines 55-121). The Python
function mutates `payload` in place when it writes the lower-cased command
name back; the translation returns the pair `(valid, diagnostic)` together
with the (possibly updated) payload. -/
def validate_payload (payload : PyVal) : (Bool × Option Diag) × PyVal :=
  match payload with
  | .vDict d =>
      match dget d "command" with
      | .vStr s =>
          if s = "" then ((false, some .missingCommand), payload)
          else
            let cl := pyLower s
            if ALLOWED_COMMANDS.contains cl = false then
              ((false, some (.unknownCommand s)), payload)
            else
              let d2 := dset d "command" (.vStr cl)
              if cl = "spawn_object" then
                if pyTruthy (dget d2 "primitive_type") = false then
                  ((false, some .spawnRequiresPrimitiveType), .vDict d2)
                else ((true, none), .vDict d2)
              else if cl = "delete_object" then
                if pyTruthy (dget d2 "object_name") = false then
                  ((false, some .deleteRequiresObjectName), .vDict d2)
                else ((true, none), .vDict d2)
              else if cl = "translate_mesh" then
                if (is_vector (dget d2 "offset")
                    || is_vector (dget d2 "position")) = false then
                  ((false, some .translateRequiresVector), .vDict d2)
                else ((true, none), .vDict d2)
              else if cl = "rotate_mesh" then
                if is_vector (dget d2 "rotation") = false then
                  ((false, some .rotateRequiresVector), .vDict d2)
                else ((true, none), .vDict d2)
              else ((true, none), .vDict d2)
      | _ => ((false, some .missingCommand), payload)
  | _ => ((false, some .notAnObject), payload)

/-- Model of the subscript `d[k]`: raises `KeyError` when the key is
absent. -/
def subscriptE (d : List (String × PyVal)) (k : String) :
    Except PyExc PyVal :=
  match d.lookup k with
  | some v => .ok v
  | none => .error (.keyError k)

/-- The body of the `try` block of `is_vector`:
`float(value[x]); float(value[y]); float(value[z])` in order, propagating
the first exception. -/
def tryFloatsXYZ (d : List (String × PyVal)) : Except PyExc Unit := do
  let vx ← subscriptE d "x"
  let _ ← floatE vx
  let vy ← subscriptE d "y"
  let _ ← floatE vy
  let vz ← subscriptE d "z"
  let _ ← floatE vz
  pure ()

/-- Exception-aware translation of `is_vector`: identical control flow, but
subscripts and `float` conversions are performed in the `Except` monad and
only `TypeError` and `ValueError` are caught by the `except` clause - a
`KeyError` would escape. -/
def is_vectorE (value : PyVal) : Except PyExc Bool :=
  match value with
  | .vDict d =>
      if hasXYZ d then
        match tryFloatsXYZ d with
        | .ok _ => .ok true
        | .error .typeError => .ok false
        | .error .valueError => .ok false
        | .error e => .error e
      else .ok false
  | _ => .ok false

/-- Exception-aware translation of `validate_payload`: all dictionary access
goes through the raising primitives; the statement that it always returns
`Except.ok` of the pure result is the no-exception-crosses-the-boundary
property of the validator. -/
def validate_payloadE (payload : PyVal) :
    Except PyExc ((Bool × Option Diag) × PyVal) :=
  match payload with
  | .vDict d =>
      match dget d "command" with
      | .vStr s =>
          if s = "" then .ok ((false, some .missingCommand), payload)
          else
            let cl := pyLower s
            if ALLOWED_COMMANDS.contains cl = false then
              .ok ((false, some (.unknownCommand s)), payload)
            else
              let d2 := dset d "command" (.vStr cl)
              if cl = "spawn_object" then
                .ok (if pyTruthy (dget d2 "primitive_type") = false then
                  ((false, some .spawnRequiresPrimitiveType), .vDict d2)
                else ((true, none), .vDict d2))
              else if cl = "delete_object" then
                .ok (if pyTruthy (dget d2 "object_name") = false then
                  ((false, some .deleteRequiresObjectName), .vDict d2)
                else ((true, none), .vDict d2))
              else if cl = "translate_mesh" then do
                let b1 ← is_vectorE (dget d2 "offset")
                if b1 then pure ((true, none), .vDict d2)
                else do
                  let b2 ← is_vectorE (dget d2 "position")
                  if b2 then pure ((true, none), .vDict d2)
                  else pure ((false, some .translateRequiresVector), .vDict d2)
              else if cl = "rotate_mesh" then do
                let b ← is_vectorE (dget d2 "rotation")
                if b then pure ((true, none), .vDict d2)
                else pure ((false, some .rotateRequiresVector), .vDict d2)
              else .ok ((true, none), .vDict d2)
      | _ => .ok ((false, some .missingCommand), payload)
  | _ => .ok ((false, some .notAnObject), payload)

/-- Content of a conversation turn. The literal English of the two
corrective-prompt templates (vlm.py lines 212-219 and 234-241) carries no
logical content, so a correction turn is represented by its template tag
plus the interpolated data: the parse-error text for the JSON correction,
and the diagnostic (the `validation_error` slot, an `Option` exactly as the
second component returned by `validate_payload`) for the validation
correction. Every other content is a plain string. -/
inductive Content where
  | text (s : String)
  | parseRetry (exc : String)
  | validationRetry (d : Option Diag)
deriving DecidableEq

/-- A conversation turn: role, content, attached images (empty models the
absent `images` key). Only the request handler ever sets images; the
orchestrator treats turns opaquely. -/
structure Message where
  role : String
  content : Content
  images : List String
deriving DecidableEq

/-- Outcome of one call to the external completion capability
(`executor.submit(ollama.chat, ...)` followed by `future.result(30.0)`):
the deadline expired, the call raised, or a completion text arrived. -/
inductive Outcome where
  | timeout
  | failed (exc : String)
  | completion (content : String)
deriving DecidableEq

/-- The `error_message` strings assigned by `request_with_validation`, one
constructor per template, carrying the interpolated data. -/
inductive ErrMsg where
  | ollamaTimeout
  | ollamaFailed (exc : String)
  | notValidJSON (exc : String)
  | invalidPayload (d : Option Diag)
  | notValidAfterRetries
deriving DecidableEq

/-- The external JSON parser (`json.loads`): a function from the completion
text to a parsed value or a parse-error message. It is a Python standard
library capability, not code of this repository, so the orchestrator is
parameterized by it. -/
def Jloads : Type := String → Except String PyVal

/-- The local state of the retry loop: the working message list, the
`last_output` and `error_message` variables, plus two observables that the
Python code exhibits only through its side effects - the number of
completion calls submitted so far and the number of corrective retries
appended so far. -/
structure LoopState where
  messages : List Message
  last_output : String
  error_message : Option ErrMsg
  calls : Nat
  retries : Nat

/-- Result of one orchestration run: the four components of the Python
return tuple `(payload, raw_output, success, error_message)` plus the final
working conversation and the call/retry counters. -/
structure RunResult where
  payload : Option PyVal
  rawOutput : String
  success : Bool
  error : Option ErrMsg
  finalMessages : List Message
  calls : Nat
  retries : Nat

/-- The final `return None, last_output, False, error_message or "Model
response was not valid after retries"` (vlm.py line 246), reached both by
exhausting the loop and by `break` on a fatal outcome. -/
def finalResult (st : LoopState) : RunResult :=
  { payload := none
    rawOutput := st.last_output
    success := false
    error := some (st.error_message.getD .notValidAfterRetries)
    finalMessages := st.messages
    calls := st.calls
    retries := st.retries }

/-- The two turns appended after a JSON parse failure: assistant echo of the
raw output, then the corrective user turn (vlm.py lines 208-221). -/
def parseRetryTurns (out exc : String) : List Message :=
  [⟨"assistant", .text out, []⟩, ⟨"user", .parseRetry exc, []⟩]

/-- The two turns appended after a validation failure: assistant echo of the
raw output, then the corrective user turn (vlm.py lines 231-243). -/
def validationRetryTurns (out : String) (d : Option Diag) : List Message :=
  [⟨"assistant", .text out, []⟩, ⟨"user", .validationRetry d, []⟩]

/-- The `for attempt in range(max_attempts)` loop of
`request_with_validation` (vlm.py lines 174-243), by recursion on the
remaining attempts; the oracle stream gives the outcome of each successive
completion call and is shifted by one on every recursive step. -/
def runLoop (jl : Jloads) : Nat → (Nat → Outcome) → LoopState → RunResult
  | 0, _, st => finalResult st
  | n + 1, oracle, st =>
      match oracle 0 with
      | .timeout =>
          finalResult { st with
            error_message := some .ollamaTimeout, calls := st.calls + 1 }
      | .failed exc =>
          finalResult { st with
            error_message := some (.ollamaFailed exc), calls := st.calls + 1 }
      | .completion content =>
          let out := pyStrip content
          match jl out with
          | .error exc =>
              runLoop jl n (fun i => oracle (i + 1))
                { messages := st.messages ++ parseRetryTurns out exc
                  last_output := out
                  error_message := some (.notValidJSON exc)
                  calls := st.calls + 1
                  retries := st.retries + 1 }
          | .ok payload =>
              match validate_payload payload with
              | ((true, _), payload2) =>
                  { payload := some payload2
                    rawOutput := out
                    success := true
                    error := none
                    finalMessages := st.messages
                    calls := st.calls + 1
                    retries := st.retries }
              | ((false, d), _) =>
                  runLoop jl n (fun i => oracle (i + 1))
                    { messages := st.messages ++ validationRetryTurns out d
                      last_output := out
                      error_message := some (.invalidPayload d)
                      calls := st.calls + 1
                      retries := st.retries + 1 }

/-- Translation of `request_with_validation` (vlm.py lines 166-246),
parameterized by the JSON parser and by the stream of completion-call
outcomes. It starts from a working copy of `base_messages` (the
`deepcopy`), empty `last_output` and no `error_message`. -/
def request_with_validation (jl : Jloads) (base_messages : List Message)
    (max_attempts : Nat) (oracle : Nat → Outcome) : RunResult :=
  runLoop jl max_attempts oracle
    { messages := base_messages
      last_output := ""
      error_message := none
      calls := 0
      retries := 0 }

/-- A heap of list objects, used to make the `deepcopy` of `base_messages`
observable: Python lists are mutable objects handed around by reference, so
the store maps a list identifier to its current value. -/
abbrev MsgStore : Type := List (List Message)

/-- Heap-level wrapper of `request_with_validation`: the caller passes the
identifier of its `base_messages` list object; the orchestrator first
allocates a fresh object holding a deep copy of that value (vlm.py line
170), then all `messages.extend(...)` mutations hit the fresh object only,
whose final value is written back to the store. -/
def request_with_validation_heap (jl : Jloads) (store : MsgStore)
    (baseId : Nat) (max_attempts : Nat) (oracle : Nat → Outcome) :
    RunResult × MsgStore :=
  let base := store.getD baseId []
  let workId := store.length
  let store2 := store ++ [base]
  let r := request_with_validation jl base max_attempts oracle
  (r, store2.set workId r.finalMessages)

/-- A completion-call outcome that delivers text which parses and validates:
the outcome on which the loop returns success. -/
def goodOutcome (jl : Jloads) (o : Outcome) : Bool :=
  match o with
  | .completion content =>
      match jl (pyStrip content) with
      | .ok p => (validate_payload p).1.1
      | .error _ => false
  | _ => false

/-- A completion-call outcome that delivers text failing to parse or to
validate: the recoverable failures, on which the loop appends a corrective
turn pair and retries. -/
def contentFailure (jl : Jloads) (o : Outcome) : Bool :=
  match o with
  | .completion content =>
      match jl (pyStrip content) with
      | .ok p => !(validate_payload p).1.1
      | .error _ => true
  | _ => false

/-- The diagnostic that a content failure leaves in `error_message`. -/
def outcomeDiag (jl : Jloads) (o : Outcome) : Option ErrMsg :=
  match o with
  | .completion content =>
      match jl (pyStrip content) with
      | .ok p => some (.invalidPayload (validate_payload p).1.2)
      | .error exc => some (.notValidJSON exc)
  | _ => none

/-- Whether an outcome is a transport failure or a deadline expiry. -/
def fatalOutcome : Outcome → Bool
  | .timeout => true
  | .failed _ => true
  | .completion _ => false

/-- The error a fatal outcome leaves in `error_message`. -/
def fatalErrOf : Outcome → Option ErrMsg
  | .timeout => some .ollamaTimeout
  | .failed exc => some (.ollamaFailed exc)
  | .completion _ => none

/-- Flattening of a list of turn pairs into consecutive turns. -/
def turnsOf : List (Message × Message) → List Message
  | [] => []
  | p :: rest => p.1 :: p.2 :: turnsOf rest

/-- Shape of a corrective turn pair: an assistant turn echoing raw text,
followed by a user turn carrying one of the two correction templates. -/
def correctivePair (p : Message × Message) : Prop :=
  (∃ t, p.1 = ⟨"assistant", .text t, []⟩)
    ∧ ((∃ e, p.2 = ⟨"user", .parseRetry e, []⟩)
        ∨ (∃ d, p.2 = ⟨"user", .validationRetry d, []⟩))

/-- Modelled from the spec: the Vector3 acceptance condition as the spec
states it - a mapping with all of `x`, `y`, `z` present, each parseable as
a finite number (no NaN, no infinity). -/
def isFiniteVector3 (v : PyVal) : Bool :=
  match v with
  | .vDict d =>
      ["x", "y", "z"].all (fun k =>
        match (d.lookup k).bind (fun w => (floatE w).toOption) with
        | some (.finite _) => true
        | _ => false)
  | _ => false

/-- Modelled from the spec, amended: the Vector3 acceptance condition
without the finiteness requirement - a mapping with all of `x`, `y`, `z`
present, each parseable as a number, where NaN and the infinities (as float
values or as numeric-looking strings) also count as numbers. -/
def vector3Amended (v : PyVal) : Prop :=
  ∃ d, v = .vDict d ∧
    ∀ k ∈ (["x", "y", "z"] : List String),
      ∃ w f, d.lookup k = some w ∧ floatE w = .ok f

theorem keyContains_lookup (k : String) :
    ∀ d : List (String × PyVal),
      (keyList d).contains k = true → ∃ v, d.lookup k = some v := by
  intro d
  induction d with
  | nil => intro h; simp [keyList] at h
  | cons hd tl ih =>
      rcases hd with ⟨k1, v1⟩
      intro h
      by_cases he : k = k1
      · subst he
        exact ⟨v1, by simp [List.lookup]⟩
      · have hb : (k == k1) = false := by simp [he]
        have hm : k ∈ keyList ((k1, v1) :: tl) := by simpa using h
        have hm2 : (keyList tl).contains k = true := by
          have : k ∈ keyList tl := by
            rcases (by simpa [keyList] using hm : k = k1 ∨ k ∈ keyList tl)
              with h1 | h1
            · exact absurd h1 he
            · exact h1
          simpa using this
        obtain ⟨v, hv⟩ := ih hm2
        exact ⟨v, by simp [List.lookup, hb, hv]⟩

theorem floatE_error_cases (v : PyVal) (e : PyExc) (h : floatE v = .error e) :
    e = .typeError ∨ e = .valueError := by
  cases v with
  | vStr s =>
      rw [floatE] at h
      cases hp : pyFloatOfString s <;> rw [hp] at h
      · exact Or.inr (Except.error.inj h).symm
      · exact absurd h (by simp)
  | vBool b => exact absurd h (by simp [floatE])
  | vInt n => exact absurd h (by simp [floatE])
  | vFloat f => exact absurd h (by simp [floatE])
  | vNone => exact Or.inl (Except.error.inj h).symm
  | vList xs => exact Or.inl (Except.error.inj h).symm
  | vDict xs => exact Or.inl (Except.error.inj h).symm

theorem except_bind_ok {α β : Type} (a : α) (f : α → Except PyExc β) :
    (Except.ok a : Except PyExc α) >>= f = f a := rfl

theorem except_bind_error {α β : Type} (e : PyExc)
    (f : α → Except PyExc β) :
    (Except.error e : Except PyExc α) >>= f = Except.error e := rfl

theorem is_vectorE_ok (value : PyVal) :
    is_vectorE value = .ok (is_vector value) := by
  cases value with
  | vDict d =>
      simp only [is_vectorE, is_vector]
      by_cases hk : hasXYZ d = true
      · have hk3 := hk
        rw [hasXYZ] at hk3
        simp only [Bool.and_eq_true] at hk3
        obtain ⟨⟨hkx, hky⟩, hkz⟩ := hk3
        obtain ⟨wx, hwx⟩ := keyContains_lookup "x" d hkx
        obtain ⟨wy, hwy⟩ := keyContains_lookup "y" d hky
        obtain ⟨wz, hwz⟩ := keyContains_lookup "z" d hkz
        have hgx : dget d "x" = wx := by simp [dget, hwx]
        have hgy : dget d "y" = wy := by simp [dget, hwy]
        have hgz : dget d "z" = wz := by simp [dget, hwz]
        have hsx : subscriptE d "x" = .ok wx := by simp [subscriptE, hwx]
        have hsy : subscriptE d "y" = .ok wy := by simp [subscriptE, hwy]
        have hsz : subscriptE d "z" = .ok wz := by simp [subscriptE, hwz]
        rw [if_pos hk, if_pos hk, hgx, hgy, hgz]
        cases hfx : floatE wx with
        | error e =>
            have ht : tryFloatsXYZ d = .error e := by
              rw [tryFloatsXYZ]
              simp [hsx, hfx, except_bind_ok, except_bind_error]
            rcases floatE_error_cases wx e hfx with he | he <;> subst he <;>
              simp [ht, pyFloatable, hfx]
        | ok fx =>
            cases hfy : floatE wy with
            | error e =>
                have ht : tryFloatsXYZ d = .error e := by
                  rw [tryFloatsXYZ]
                  simp [hsx, hsy, hfx, hfy, except_bind_ok, except_bind_error]
                rcases floatE_error_cases wy e hfy with he | he <;> subst he <;>
                  simp [ht, pyFloatable, hfx, hfy]
            | ok fy =>
                cases hfz : floatE wz with
                | error e =>
                    have ht : tryFloatsXYZ d = .error e := by
                      rw [tryFloatsXYZ]
                      simp [hsx, hsy, hsz, hfx, hfy, hfz, except_bind_ok,
                        except_bind_error]
                    rcases floatE_error_cases wz e hfz with he | he <;>
                      subst he <;> simp [ht, pyFloatable, hfx, hfy, hfz]
                | ok fz =>
                    have ht : tryFloatsXYZ d = .ok () := by
                      rw [tryFloatsXYZ]
                      simp [hsx, hsy, hsz, hfx, hfy, hfz, except_bind_ok]
                    simp [ht, pyFloatable, hfx, hfy, hfz]
      · simp only [Bool.not_eq_true] at hk
        simp [hk]
  | vNone => rfl
  | vBool b => rfl
  | vInt n => rfl
  | vFloat f => rfl
  | vStr s => rfl
  | vList xs => rfl

theorem validate_payloadE_ok (payload : PyVal) :
    validate_payloadE payload = .ok (validate_payload payload) := by
  cases payload with
  | vDict d =>
      simp only [validate_payloadE, validate_payload]
      cases hc : dget d "command" with
      | vStr s =>
          by_cases hs : s = ""
          · simp [hs]
          · simp only [hs, if_false]
            by_cases ha : pyLower s ∈ ALLOWED_COMMANDS
            · by_cases h1 : pyLower s = "spawn_object"
              · rw [h1] at ha
                simp [ha, h1]
              · by_cases h2 : pyLower s = "delete_object"
                · rw [h2] at ha
                  simp [ha, h1, h2]
                · by_cases h3 : pyLower s = "translate_mesh"
                  · rw [h3] at ha
                    simp only [h1, h2, h3, if_false, if_true,
                      is_vectorE_ok, except_bind_ok]
                    cases hb1 : is_vector
                        (dget (dset d "command" (.vStr "translate_mesh"))
                          "offset")
                      <;> cases hb2 : is_vector
                        (dget (dset d "command" (.vStr "translate_mesh"))
                          "position")
                      <;> simp [ha, hb1, hb2, pure, Except.pure]
                  · by_cases h4 : pyLower s = "rotate_mesh"
                    · rw [h4] at ha
                      simp only [h1, h2, h3, h4, if_false, if_true,
                        is_vectorE_ok, except_bind_ok]
                      cases hb : is_vector
                          (dget (dset d "command" (.vStr "rotate_mesh"))
                            "rotation")
                        <;> simp [ha, hb, pure, Except.pure]
                    · simp [ha, h1, h2, h3, h4]
            · simp [ha]
      | vNone => simp
      | vBool b => simp
      | vInt n => simp
      | vFloat f => simp
      | vList xs => simp
      | vDict xs => simp
  | vNone => rfl
  | vBool b => rfl
  | vInt n => rfl
  | vFloat f => rfl
  | vStr s => rfl
  | vList xs => rfl

theorem exists_attempt_shift (G F : Nat → Prop) (n : Nat)
    (hG : ¬ G 0) (hF : F 0) :
    (∃ i, i < n + 1 ∧ G i ∧ ∀ j, j < i → F j) ↔
      (∃ i, i < n ∧ G (i + 1) ∧ ∀ j, j < i → F (j + 1)) := by
  constructor
  · rintro ⟨i, hi, hg, hall⟩
    cases i with
    | zero => exact absurd hg hG
    | succ k =>
        exact ⟨k, by omega, hg, fun j hj => hall (j + 1) (by omega)⟩
  · rintro ⟨i, hi, hg, hall⟩
    refine ⟨i + 1, by omega, hg, fun j hj => ?_⟩
    cases j with
    | zero => exact hF
    | succ k => exact hall k (by omega)

theorem runLoop_success_iff (jl : Jloads) :
    ∀ (n : Nat) (oracle : Nat → Outcome) (st : LoopState),
      (runLoop jl n oracle st).success = true ↔
        ∃ i, i < n ∧ goodOutcome jl (oracle i) = true ∧
          ∀ j, j < i → contentFailure jl (oracle j) = true := by
  intro n
  induction n with
  | zero =>
      intro oracle st
      simp [runLoop, finalResult]
  | succ n ih =>
      intro oracle st
      cases ho : oracle 0 with
      | timeout =>
          simp only [runLoop, ho, finalResult]
          constructor
          · intro h; exact absurd h (by simp)
          · rintro ⟨i, hi, hg, hall⟩
            cases i with
            | zero => simp [goodOutcome, ho] at hg
            | succ k =>
                have := hall 0 (by omega)
                simp [contentFailure, ho] at this
      | failed exc =>
          simp only [runLoop, ho, finalResult]
          constructor
          · intro h; exact absurd h (by simp)
          · rintro ⟨i, hi, hg, hall⟩
            cases i with
            | zero => simp [goodOutcome, ho] at hg
            | succ k =>
                have := hall 0 (by omega)
                simp [contentFailure, ho] at this
      | completion content =>
          cases hj : jl (pyStrip content) with
          | error exc =>
              have hstep :
                  runLoop jl (n + 1) oracle st =
                    runLoop jl n (fun i => oracle (i + 1))
                      { messages := st.messages
                          ++ parseRetryTurns (pyStrip content) exc
                        last_output := pyStrip content
                        error_message := some (.notValidJSON exc)
                        calls := st.calls + 1
                        retries := st.retries + 1 } := by
                simp [runLoop, ho, hj]
              rw [hstep, ih]
              exact (exists_attempt_shift
                (fun i => goodOutcome jl (oracle i) = true)
                (fun j => contentFailure jl (oracle j) = true) n
                (by simp [goodOutcome, ho, hj])
                (by simp [contentFailure, ho, hj])).symm
          | ok p =>
              rcases hv : validate_payload p with ⟨⟨b, dg⟩, p2⟩
              cases b with
              | true =>
                  have hstep : (runLoop jl (n + 1) oracle st).success = true := by
                    simp [runLoop, ho, hj, hv]
                  rw [hstep]
                  simp only [true_iff]
                  exact ⟨0, by omega, by simp [goodOutcome, ho, hj, hv],
                    fun j hj2 => absurd hj2 (by omega)⟩
              | false =>
                  have hstep :
                      runLoop jl (n + 1) oracle st =
                        runLoop jl n (fun i => oracle (i + 1))
                          { messages := st.messages
                              ++ validationRetryTurns (pyStrip content) dg
                            last_output := pyStrip content
                            error_message := some (.invalidPayload dg)
                            calls := st.calls + 1
                            retries := st.retries + 1 } := by
                    simp [runLoop, ho, hj, hv]
                  rw [hstep, ih]
                  exact (exists_attempt_shift
                    (fun i => goodOutcome jl (oracle i) = true)
                    (fun j => contentFailure jl (oracle j) = true) n
                    (by simp [goodOutcome, ho, hj, hv])
                    (by simp [contentFailure, ho, hj, hv])).symm

theorem runLoop_success_at (jl : Jloads) :
    ∀ (n : Nat) (oracle : Nat → Outcome) (st : LoopState) (i : Nat)
      (content : String) (p : PyVal),
      i < n →
      (∀ j, j < i → contentFailure jl (oracle j) = true) →
      oracle i = .completion content →
      jl (pyStrip content) = .ok p →
      (validate_payload p).1.1 = true →
      (runLoop jl n oracle st).payload = some (validate_payload p).2 ∧
        (runLoop jl n oracle st).rawOutput = pyStrip content ∧
        (runLoop jl n oracle st).success = true ∧
        (runLoop jl n oracle st).error = none ∧
        (runLoop jl n oracle st).calls = st.calls + i + 1 := by
  intro n
  induction n with
  | zero => intro oracle st i content p hi; omega
  | succ n ih =>
      intro oracle st i content p hi hall ho hj hv
      cases i with
      | zero =>
          rcases hveq : validate_payload p with ⟨⟨b, dg⟩, p2⟩
          rw [hveq] at hv
          simp only at hv
          subst hv
          simp [runLoop, ho, hj, hveq]
      | succ k =>
          have hcf := hall 0 (by omega)
          cases ho0 : oracle 0 with
          | timeout => simp [contentFailure, ho0] at hcf
          | failed exc => simp [contentFailure, ho0] at hcf
          | completion c0 =>
              cases hj0 : jl (pyStrip c0) with
              | error exc =>
                  have hstep :
                      runLoop jl (n + 1) oracle st =
                        runLoop jl n (fun i2 => oracle (i2 + 1))
                          { messages := st.messages
                              ++ parseRetryTurns (pyStrip c0) exc
                            last_output := pyStrip c0
                            error_message := some (.notValidJSON exc)
                            calls := st.calls + 1
                            retries := st.retries + 1 } := by
                    simp [runLoop, ho0, hj0]
                  rw [hstep]
                  have hres := ih (fun i2 => oracle (i2 + 1))
                    { messages := st.messages
                        ++ parseRetryTurns (pyStrip c0) exc
                      last_output := pyStrip c0
                      error_message := some (.notValidJSON exc)
                      calls := st.calls + 1
                      retries := st.retries + 1 }
                    k content p (by omega)
                    (fun j hj2 => hall (j + 1) (by omega)) ho hj hv
                  refine ⟨hres.1, hres.2.1, hres.2.2.1, hres.2.2.2.1, ?_⟩
                  rw [hres.2.2.2.2]
                  show st.calls + 1 + k + 1 = st.calls + (k + 1) + 1
                  omega
              | ok p0 =>
                  rcases hv0 : validate_payload p0 with ⟨⟨b0, dg0⟩, p02⟩
                  cases b0 with
                  | true =>
                      simp [contentFailure, ho0, hj0, hv0] at hcf
                  | false =>
                      have hstep :
                          runLoop jl (n + 1) oracle st =
                            runLoop jl n (fun i2 => oracle (i2 + 1))
                              { messages := st.messages
                                  ++ validationRetryTurns (pyStrip c0) dg0
                                last_output := pyStrip c0
                                error_message := some (.invalidPayload dg0)
                                calls := st.calls + 1
                                retries := st.retries + 1 } := by
                        simp [runLoop, ho0, hj0, hv0]
                      rw [hstep]
                      have hres := ih (fun i2 => oracle (i2 + 1))
                        { messages := st.messages
                            ++ validationRetryTurns (pyStrip c0) dg0
                          last_output := pyStrip c0
                          error_message := some (.invalidPayload dg0)
                          calls := st.calls + 1
                          retries := st.retries + 1 }
                        k content p (by omega)
                        (fun j hj2 => hall (j + 1) (by omega)) ho hj hv
                      refine ⟨hres.1, hres.2.1, hres.2.2.1, hres.2.2.2.1, ?_⟩
                      rw [hres.2.2.2.2]
                      show st.calls + 1 + k + 1 = st.calls + (k + 1) + 1
                      omega

theorem runLoop_fatal (jl : Jloads) :
    ∀ (n : Nat) (oracle : Nat → Outcome) (st : LoopState) (N : Nat),
      N < n →
      (∀ j, j < N → contentFailure jl (oracle j) = true) →
      fatalOutcome (oracle N) = true →
      (runLoop jl n oracle st).success = false ∧
        (runLoop jl n oracle st).error = fatalErrOf (oracle N) ∧
        (runLoop jl n oracle st).payload = none ∧
        (runLoop jl n oracle st).calls = st.calls + N + 1 := by
  intro n
  induction n with
  | zero => intro oracle st N hN; omega
  | succ n ih =>
      intro oracle st N hN hall hfatal
      cases N with
      | zero =>
          cases ho : oracle 0 with
          | timeout => simp [runLoop, ho, finalResult, fatalErrOf]
          | failed exc => simp [runLoop, ho, finalResult, fatalErrOf]
          | completion c0 => simp [fatalOutcome, ho] at hfatal
      | succ k =>
          have hcf := hall 0 (by omega)
          cases ho0 : oracle 0 with
          | timeout => simp [contentFailure, ho0] at hcf
          | failed exc => simp [contentFailure, ho0] at hcf
          | completion c0 =>
              cases hj0 : jl (pyStrip c0) with
              | error exc =>
                  have hstep :
                      runLoop jl (n + 1) oracle st =
                        runLoop jl n (fun i2 => oracle (i2 + 1))
                          { messages := st.messages
                              ++ parseRetryTurns (pyStrip c0) exc
                            last_output := pyStrip c0
                            error_message := some (.notValidJSON exc)
                            calls := st.calls + 1
                            retries := st.retries + 1 } := by
                    simp [runLoop, ho0, hj0]
                  rw [hstep]
                  have hres := ih (fun i2 => oracle (i2 + 1))
                    { messages := st.messages
                        ++ parseRetryTurns (pyStrip c0) exc
                      last_output := pyStrip c0
                      error_message := some (.notValidJSON exc)
                      calls := st.calls + 1
                      retries := st.retries + 1 }
                    k (by omega)
                    (fun j hj2 => hall (j + 1) (by omega)) hfatal
                  refine ⟨hres.1, hres.2.1, hres.2.2.1, ?_⟩
                  rw [hres.2.2.2]
                  show st.calls + 1 + k + 1 = st.calls + (k + 1) + 1
                  omega
              | ok p0 =>
                  rcases hv0 : validate_payload p0 with ⟨⟨b0, dg0⟩, p02⟩
                  cases b0 with
                  | true =>
                      simp [contentFailure, ho0, hj0, hv0] at hcf
                  | false =>
                      have hstep :
                          runLoop jl (n + 1) oracle st =
                            runLoop jl n (fun i2 => oracle (i2 + 1))
                              { messages := st.messages
                                  ++ validationRetryTurns (pyStrip c0) dg0
                                last_output := pyStrip c0
                                error_message := some (.invalidPayload dg0)
                                calls := st.calls + 1
                                retries := st.retries + 1 } := by
                        simp [runLoop, ho0, hj0, hv0]
                      rw [hstep]
                      have hres := ih (fun i2 => oracle (i2 + 1))
                        { messages := st.messages
                            ++ validationRetryTurns (pyStrip c0) dg0
                          last_output := pyStrip c0
                          error_message := some (.invalidPayload dg0)
                          calls := st.calls + 1
                          retries := st.retries + 1 }
                        k (by omega)
                        (fun j hj2 => hall (j + 1) (by omega)) hfatal
                      refine ⟨hres.1, hres.2.1, hres.2.2.1, ?_⟩
                      rw [hres.2.2.2]
                      show st.calls + 1 + k + 1 = st.calls + (k + 1) + 1
                      omega

theorem runLoop_exhausted (jl : Jloads) :
    ∀ (n : Nat) (oracle : Nat → Outcome) (st : LoopState),
      0 < n →
      (∀ i, i < n → contentFailure jl (oracle i) = true) →
      ∃ content, oracle (n - 1) = .completion content ∧
        (runLoop jl n oracle st).success = false ∧
        (runLoop jl n oracle st).payload = none ∧
        (runLoop jl n oracle st).rawOutput = pyStrip content ∧
        (runLoop jl n oracle st).error = outcomeDiag jl (oracle (n - 1)) ∧
        (runLoop jl n oracle st).calls = st.calls + n := by
  intro n
  induction n with
  | zero => intro oracle st h; omega
  | succ n ih =>
      intro oracle st hpos hall
      have hcf := hall 0 (by omega)
      cases ho0 : oracle 0 with
      | timeout => simp [contentFailure, ho0] at hcf
      | failed exc => simp [contentFailure, ho0] at hcf
      | completion c0 =>
          cases hj0 : jl (pyStrip c0) with
          | error exc =>
              have hstep :
                  runLoop jl (n + 1) oracle st =
                    runLoop jl n (fun i2 => oracle (i2 + 1))
                      { messages := st.messages
                          ++ parseRetryTurns (pyStrip c0) exc
                        last_output := pyStrip c0
                        error_message := some (.notValidJSON exc)
                        calls := st.calls + 1
                        retries := st.retries + 1 } := by
                simp [runLoop, ho0, hj0]
              rw [hstep]
              cases n with
              | zero =>
                  refine ⟨c0, by simpa using ho0, ?_⟩
                  simp [runLoop, finalResult, outcomeDiag, ho0, hj0]
              | succ m =>
                  obtain ⟨content, hc, h1, h2, h3, h4, h5⟩ :=
                    ih (fun i2 => oracle (i2 + 1))
                      { messages := st.messages
                          ++ parseRetryTurns (pyStrip c0) exc
                        last_output := pyStrip c0
                        error_message := some (.notValidJSON exc)
                        calls := st.calls + 1
                        retries := st.retries + 1 }
                      (by omega)
                      (fun j hj2 => hall (j + 1) (by omega))
                  refine ⟨content, ?_, h1, h2, h3, ?_, ?_⟩
                  · simpa using hc
                  · rw [h4]
                    congr 1
                  · rw [h5]
                    show st.calls + 1 + (m + 1) = st.calls + (m + 1 + 1)
                    omega
          | ok p0 =>
              rcases hv0 : validate_payload p0 with ⟨⟨b0, dg0⟩, p02⟩
              cases b0 with
              | true =>
                  simp [contentFailure, ho0, hj0, hv0] at hcf
              | false =>
                  have hstep :
                      runLoop jl (n + 1) oracle st =
                        runLoop jl n (fun i2 => oracle (i2 + 1))
                          { messages := st.messages
                              ++ validationRetryTurns (pyStrip c0) dg0
                            last_output := pyStrip c0
                            error_message := some (.invalidPayload dg0)
                            calls := st.calls + 1
                            retries := st.retries + 1 } := by
                    simp [runLoop, ho0, hj0, hv0]
                  rw [hstep]
                  cases n with
                  | zero =>
                      refine ⟨c0, by simpa using ho0, ?_⟩
                      simp [runLoop, finalResult, outcomeDiag, ho0, hj0, hv0]
                  | succ m =>
                      obtain ⟨content, hc, h1, h2, h3, h4, h5⟩ :=
                        ih (fun i2 => oracle (i2 + 1))
                          { messages := st.messages
                              ++ validationRetryTurns (pyStrip c0) dg0
                            last_output := pyStrip c0
                            error_message := some (.invalidPayload dg0)
                            calls := st.calls + 1
                            retries := st.retries + 1 }
                          (by omega)
                          (fun j hj2 => hall (j + 1) (by omega))
                      refine ⟨content, ?_, h1, h2, h3, ?_, ?_⟩
                      · simpa using hc
                      · rw [h4]
                        congr 1
                      · rw [h5]
                        show st.calls + 1 + (m + 1) = st.calls + (m + 1 + 1)
                        omega

theorem runLoop_turns (jl : Jloads) :
    ∀ (n : Nat) (oracle : Nat → Outcome) (st : LoopState),
      ∃ pairs : List (Message × Message),
        (runLoop jl n oracle st).finalMessages
            = st.messages ++ turnsOf pairs ∧
          (runLoop jl n oracle st).retries = st.retries + pairs.length ∧
          ∀ p ∈ pairs, correctivePair p := by
  intro n
  induction n with
  | zero =>
      intro oracle st
      exact ⟨[], by simp [runLoop, finalResult, turnsOf]⟩
  | succ n ih =>
      intro oracle st
      cases ho : oracle 0 with
      | timeout =>
          exact ⟨[], by simp [runLoop, ho, finalResult, turnsOf]⟩
      | failed exc =>
          exact ⟨[], by simp [runLoop, ho, finalResult, turnsOf]⟩
      | completion c0 =>
          cases hj0 : jl (pyStrip c0) with
          | error exc =>
              have hstep :
                  runLoop jl (n + 1) oracle st =
                    runLoop jl n (fun i2 => oracle (i2 + 1))
                      { messages := st.messages
                          ++ parseRetryTurns (pyStrip c0) exc
                        last_output := pyStrip c0
                        error_message := some (.notValidJSON exc)
                        calls := st.calls + 1
                        retries := st.retries + 1 } := by
                simp [runLoop, ho, hj0]
              obtain ⟨pairs, hmsg, hret, hshape⟩ :=
                ih (fun i2 => oracle (i2 + 1))
                  { messages := st.messages
                      ++ parseRetryTurns (pyStrip c0) exc
                    last_output := pyStrip c0
                    error_message := some (.notValidJSON exc)
                    calls := st.calls + 1
                    retries := st.retries + 1 }
              refine ⟨(⟨"assistant", .text (pyStrip c0), []⟩,
                ⟨"user", .parseRetry exc, []⟩) :: pairs, ?_, ?_, ?_⟩
              · rw [hstep, hmsg]
                simp [parseRetryTurns, turnsOf]
              · rw [hstep, hret]
                show st.retries + 1 + pairs.length
                  = st.retries + (pairs.length + 1)
                omega
              · intro p hp
                rcases List.mem_cons.mp hp with hp | hp
                · subst hp
                  exact ⟨⟨pyStrip c0, rfl⟩, Or.inl ⟨exc, rfl⟩⟩
                · exact hshape p hp
          | ok p0 =>
              rcases hv0 : validate_payload p0 with ⟨⟨b0, dg0⟩, p02⟩
              cases b0 with
              | true =>
                  refine ⟨[], ?_⟩
                  simp [runLoop, ho, hj0, hv0, turnsOf]
              | false =>
                  have hstep :
                      runLoop jl (n + 1) oracle st =
                        runLoop jl n (fun i2 => oracle (i2 + 1))
                          { messages := st.messages
                              ++ validationRetryTurns (pyStrip c0) dg0
                            last_output := pyStrip c0
                            error_message := some (.invalidPayload dg0)
                            calls := st.calls + 1
                            retries := st.retries + 1 } := by
                    simp [runLoop, ho, hj0, hv0]
                  obtain ⟨pairs, hmsg, hret, hshape⟩ :=
                    ih (fun i2 => oracle (i2 + 1))
                      { messages := st.messages
                          ++ validationRetryTurns (pyStrip c0) dg0
                        last_output := pyStrip c0
                        error_message := some (.invalidPayload dg0)
                        calls := st.calls + 1
                        retries := st.retries + 1 }
                  refine ⟨(⟨"assistant", .text (pyStrip c0), []⟩,
                    ⟨"user", .validationRetry dg0, []⟩) :: pairs, ?_, ?_, ?_⟩
                  · rw [hstep, hmsg]
                    simp [validationRetryTurns, turnsOf]
                  · rw [hstep, hret]
                    show st.retries + 1 + pairs.length
                      = st.retries + (pairs.length + 1)
                    omega
                  · intro p hp
                    rcases List.mem_cons.mp hp with hp | hp
                    · subst hp
                      exact ⟨⟨pyStrip c0, rfl⟩, Or.inr ⟨dg0, rfl⟩⟩
                    · exact hshape p hp

theorem runLoop_payload_none (jl : Jloads) :
    ∀ (n : Nat) (oracle : Nat → Outcome) (st : LoopState),
      (runLoop jl n oracle st).success = false →
      (runLoop jl n oracle st).payload = none := by
  intro n
  induction n with
  | zero => intro oracle st _; simp [runLoop, finalResult]
  | succ n ih =>
      intro oracle st
      cases ho : oracle 0 with
      | timeout => intro _; simp [runLoop, ho, finalResult]
      | failed exc => intro _; simp [runLoop, ho, finalResult]
      | completion c0 =>
          cases hj0 : jl (pyStrip c0) with
          | error exc =>
              intro h
              have hstep :
                  runLoop jl (n + 1) oracle st =
                    runLoop jl n (fun i2 => oracle (i2 + 1))
                      { messages := st.messages
                          ++ parseRetryTurns (pyStrip c0) exc
                        last_output := pyStrip c0
                        error_message := some (.notValidJSON exc)
                        calls := st.calls + 1
                        retries := st.retries + 1 } := by
                simp [runLoop, ho, hj0]
              rw [hstep] at h ⊢
              exact ih _ _ h
          | ok p0 =>
              rcases hv0 : validate_payload p0 with ⟨⟨b0, dg0⟩, p02⟩
              cases b0 with
              | true =>
                  intro h
                  simp [runLoop, ho, hj0, hv0] at h
              | false =>
                  intro h
                  have hstep :
                      runLoop jl (n + 1) oracle st =
                        runLoop jl n (fun i2 => oracle (i2 + 1))
                          { messages := st.messages
                              ++ validationRetryTurns (pyStrip c0) dg0
                            last_output := pyStrip c0
                            error_message := some (.invalidPayload dg0)
                            calls := st.calls + 1
                            retries := st.retries + 1 } := by
                    simp [runLoop, ho, hj0, hv0]
                  rw [hstep] at h ⊢
                  exact ih _ _ h

theorem dset_lookup_ne (k k2 : String) (v : PyVal) (h : k2 ≠ k) :
    ∀ d : List (String × PyVal),
      (dset d k v).lookup k2 = d.lookup k2 := by
  intro d
  induction d with
  | nil =>
      have hb : (k2 == k) = false := by simp [h]
      simp [dset, List.lookup, hb]
  | cons hd tl ih =>
      rcases hd with ⟨k1, v1⟩
      by_cases h1 : k1 = k
      · subst h1
        have hb : (k2 == k1) = false := by simp [h]
        simp [dset, List.lookup, hb]
      · by_cases h2 : k2 = k1
        · subst h2
          simp [dset, h1, List.lookup]
        · have hb : (k2 == k1) = false := by simp [h2]
          simp [dset, h1, List.lookup, hb, ih]

theorem validate_payload_dispatch (d : List (String × PyVal)) (s : String)
    (hc : dget d "command" = .vStr s) (hs : ¬ s = "")
    (ha : pyLower s ∈ ALLOWED_COMMANDS) :
    (validate_payload (.vDict d)).2
        = .vDict (dset d "command" (.vStr (pyLower s))) ∧
      ∀ c, (validate_payload (.vDict d)).1.2 ≠ some (.unknownCommand c) := by
  have ha4 : pyLower s = "spawn_object" ∨ pyLower s = "delete_object"
      ∨ pyLower s = "translate_mesh" ∨ pyLower s = "rotate_mesh" := by
    simpa [ALLOWED_COMMANDS] using ha
  rcases ha4 with h4 | h4 | h4 | h4 <;>
    · rw [h4] at ha
      constructor
      · simp only [validate_payload, hc, hs, h4, if_false]
        simp [ha]
        split <;> simp
      · intro c
        simp only [validate_payload, hc, hs, h4, if_false]
        simp [ha]
        split <;> simp

theorem validate_payload_not_mutating_other_keys
    (d : List (String × PyVal)) (k : String) (hk : k ≠ "command") :
    ∃ d2, (validate_payload (.vDict d)).2 = .vDict d2
      ∧ d2.lookup k = d.lookup k := by
  by_cases hset : ∃ s, dget d "command" = .vStr s ∧ ¬ s = ""
      ∧ pyLower s ∈ ALLOWED_COMMANDS
  · obtain ⟨s, hc, hs, ha⟩ := hset
    refine ⟨dset d "command" (.vStr (pyLower s)),
      (validate_payload_dispatch d s hc hs ha).1, ?_⟩
    exact dset_lookup_ne "command" k (.vStr (pyLower s)) hk d
  · refine ⟨d, ?_, rfl⟩
    push_neg at hset
    simp only [validate_payload]
    cases hc : dget d "command" with
    | vStr s =>
        by_cases hs : s = ""
        · simp [hs]
        · have ha := hset s hc hs
          simp [hs, ha]
    | vNone => simp
    | vBool b => simp
    | vInt n => simp
    | vFloat f => simp
    | vList xs => simp
    | vDict xs => simp

theorem lookup_keyContains (k : String) (v : PyVal) :
    ∀ d : List (String × PyVal),
      d.lookup k = some v → (keyList d).contains k = true := by
  intro d
  induction d with
  | nil => intro h; simp [List.lookup] at h
  | cons hd tl ih =>
      rcases hd with ⟨k1, v1⟩
      intro h
      by_cases he : k = k1
      · subst he; simp [keyList]
      · have hb : (k == k1) = false := by simp [he]
        simp only [List.lookup, hb] at h
        have h2 := ih h
        have h3 : k ∈ keyList tl := by simpa using h2
        simp [keyList]
        simp [keyList] at h3
        exact Or.inr h3

theorem pyFloatable_ok (w : PyVal) (h : pyFloatable w = true) :
    ∃ f, floatE w = .ok f := by
  rcases hfe : floatE w with e | f
  · rw [pyFloatable, hfe] at h
    simp at h
  · exact ⟨f, rfl⟩

theorem is_vector_iff_amended (v : PyVal) :
    is_vector v = true ↔ vector3Amended v := by
  cases v with
  | vDict d =>
      constructor
      · intro h
        rw [is_vector] at h
        by_cases hk : hasXYZ d = true
        · rw [if_pos hk] at h
          have hk3 := hk
          rw [hasXYZ] at hk3
          simp only [Bool.and_eq_true] at hk3 h
          obtain ⟨⟨hkx, hky⟩, hkz⟩ := hk3
          obtain ⟨⟨hfx, hfy⟩, hfz⟩ := h
          obtain ⟨wx, hwx⟩ := keyContains_lookup "x" d hkx
          obtain ⟨wy, hwy⟩ := keyContains_lookup "y" d hky
          obtain ⟨wz, hwz⟩ := keyContains_lookup "z" d hkz
          rw [show dget d "x" = wx from by simp [dget, hwx]] at hfx
          rw [show dget d "y" = wy from by simp [dget, hwy]] at hfy
          rw [show dget d "z" = wz from by simp [dget, hwz]] at hfz
          obtain ⟨fx, hfx2⟩ := pyFloatable_ok wx hfx
          obtain ⟨fy, hfy2⟩ := pyFloatable_ok wy hfy
          obtain ⟨fz, hfz2⟩ := pyFloatable_ok wz hfz
          refine ⟨d, rfl, ?_⟩
          intro k hkmem
          rcases (by simpa using hkmem : k = "x" ∨ k = "y" ∨ k = "z")
            with hkeq | hkeq | hkeq <;> subst hkeq
          · exact ⟨wx, fx, hwx, hfx2⟩
          · exact ⟨wy, fy, hwy, hfy2⟩
          · exact ⟨wz, fz, hwz, hfz2⟩
        · rw [if_neg hk] at h
          exact absurd h (by simp)
      · rintro ⟨d2, hd2, hall⟩
        injection hd2 with hdd
        subst hdd
        obtain ⟨wx, fx, hwx, hfx⟩ := hall "x" (by simp)
        obtain ⟨wy, fy, hwy, hfy⟩ := hall "y" (by simp)
        obtain ⟨wz, fz, hwz, hfz⟩ := hall "z" (by simp)
        have hmx : "x" ∈ keyList d := by
          simpa using lookup_keyContains "x" wx d hwx
        have hmy : "y" ∈ keyList d := by
          simpa using lookup_keyContains "y" wy d hwy
        have hmz : "z" ∈ keyList d := by
          simpa using lookup_keyContains "z" wz d hwz
        have hk : hasXYZ d = true := by
          rw [hasXYZ]
          simp [hmx, hmy, hmz]
        rw [is_vector, if_pos hk]
        rw [show dget d "x" = wx from by simp [dget, hwx],
          show dget d "y" = wy from by simp [dget, hwy],
          show dget d "z" = wz from by simp [dget, hwz]]
        simp [pyFloatable, hfx, hfy, hfz]
  | vNone => simp [is_vector, vector3Amended]
  | vBool b => simp [is_vector, vector3Amended]
  | vInt n => simp [is_vector, vector3Amended]
  | vFloat f => simp [is_vector, vector3Amended]
  | vStr s => simp [is_vector, vector3Amended]
  | vList xs => simp [is_vector, vector3Amended]

theorem set_append_getD (store : MsgStore) (x y : List Message) (i : Nat)
    (h : i < store.length) :
    ((store ++ [x]).set store.length y).getD i [] = store.getD i [] := by
  have hne : store.length ≠ i := by omega
  simp only [List.getD, List.get?_eq_getElem?]
  rw [List.getElem?_set_ne hne, List.getElem?_append, if_pos h]

/-- The valid translate_mesh payload used by the concrete scenarios. -/
def tmPayloadC1 : PyVal :=
  .vDict [("command", .vStr "translate_mesh"),
    ("offset", .vDict [("x", .vInt 1), ("y", .vInt 0), ("z", .vInt 0)])]

/-- A concrete JSON-parser instance for the scenarios: one distinguished
text parses to the translate_mesh payload, everything else fails with the
parse-error text of an empty-input `json.loads` failure. -/
def jlC1 : Jloads := fun s =>
  if s = "payload two" then .ok tmPayloadC1 else .error "Expecting value"

/-- A concrete initial conversation. -/
def baseC1 : List Message := [⟨"user", .text "instructions", []⟩]

/-- Completion sequence [non-JSON text, text parsing to a valid payload]. -/
def oracleC1 : Nat → Outcome := fun i =>
  if i = 0 then .completion "not json" else .completion "payload two"

/-- Completion outcome sequence whose first call times out. -/
def oracleC2 : Nat → Outcome := fun _ => .timeout

/-- A JSON-parser instance on which every text fails to parse. -/
def jlC3 : Jloads := fun _ => .error "Expecting value"

/-- Completion sequence [invalid JSON, invalid JSON] with distinct texts. -/
def oracleC3 : Nat → Outcome := fun i =>
  if i = 0 then .completion "bad one" else .completion "bad two"

/-- A mapping whose x value is the float infinity. -/
def vecInf : PyVal :=
  .vDict [("x", .vFloat .inf), ("y", .vInt 0), ("z", .vInt 0)]

/-- A mapping whose x value is the string nan, accepted by `float(...)`. -/
def vecNan : PyVal :=
  .vDict [("x", .vStr "nan"), ("y", .vInt 0), ("z", .vInt 0)]

/-- The spec example {x:1, y:2, z:3}. -/
def vecEx1 : PyVal :=
  .vDict [("x", .vInt 1), ("y", .vInt 2), ("z", .vInt 3)]

/-- The spec example {x:"1.5", y:0, z:-2}. -/
def vecEx2 : PyVal :=
  .vDict [("x", .vStr "1.5"), ("y", .vInt 0), ("z", .vInt (-2))]

/-- The spec example {x:1, y:2} with z missing. -/
def vecEx3 : PyVal := .vDict [("x", .vInt 1), ("y", .vInt 2)]

/-- The spec example {x:"a", y:0, z:0} with a non-numeric string. -/
def vecEx4 : PyVal :=
  .vDict [("x", .vStr "a"), ("y", .vInt 0), ("z", .vInt 0)]

/-- The payload the prompt tells the model to produce when it cannot
resolve the request. -/
def unknownPayload : PyVal :=
  .vDict [("command", .vStr "unknown"),
    ("reason", .vStr "need clarification")]

/-- A JSON-parser instance on which every text parses to the unknown
payload. -/
def jlC6 : Jloads := fun _ => .ok unknownPayload

/-- Completion sequence delivering the same text on every call. -/
def oracleC6 : Nat → Outcome := fun _ => .completion "unknown reply"

/-- C1: the orchestration run `request_with_validation` returns success
exactly when some attempt completion text parses as JSON and passes the
payload validator, with all earlier attempts failing on content; on success
it returns the normalized command payload together with that attempt raw
(stripped) text and no error; and on the concrete completion sequence
[non-JSON text, valid translate_mesh payload] with two attempts it succeeds
on the second attempt with exactly one corrective user turn (one
assistant-echo plus user-correction pair) appended to the conversation. -/
theorem C1_success_iff_some_attempt_validates :
    (∀ (jl : Jloads) (base : List Message) (n : Nat)
        (oracle : Nat → Outcome),
        (request_with_validation jl base n oracle).success = true ↔
          ∃ i, i < n ∧ goodOutcome jl (oracle i) = true ∧
            ∀ j, j < i → contentFailure jl (oracle j) = true)
    ∧ (∀ (jl : Jloads) (base : List Message) (n : Nat)
        (oracle : Nat → Outcome) (i : Nat) (content : String) (p : PyVal),
        i < n →
        (∀ j, j < i → contentFailure jl (oracle j) = true) →
        oracle i = .completion content →
        jl (pyStrip content) = .ok p →
        (validate_payload p).1.1 = true →
          (request_with_validation jl base n oracle).payload
              = some (validate_payload p).2 ∧
            (request_with_validation jl base n oracle).rawOutput
              = pyStrip content ∧
            (request_with_validation jl base n oracle).error = none)
    ∧ (request_with_validation jlC1 baseC1 2 oracleC1).success = true
    ∧ (request_with_validation jlC1 baseC1 2 oracleC1).calls = 2
    ∧ (request_with_validation jlC1 baseC1 2 oracleC1).rawOutput
        = "payload two"
    ∧ (request_with_validation jlC1 baseC1 2 oracleC1).payload
        = some tmPayloadC1
    ∧ (request_with_validation jlC1 baseC1 2 oracleC1).finalMessages
        = baseC1 ++ [⟨"assistant", .text "not json", []⟩,
            ⟨"user", .parseRetry "Expecting value", []⟩] := by
  refine ⟨?_, ?_, by decide, by decide, by decide, by rfl, by decide⟩
  · intro jl base n oracle
    exact runLoop_success_iff jl n oracle _
  · intro jl base n oracle i content p hi hall ho hjp hv
    have h := runLoop_success_at jl n oracle
      { messages := base, last_output := "", error_message := none,
        calls := 0, retries := 0 } i content p hi hall ho hjp hv
    exact ⟨h.1, h.2.1, h.2.2.2.1⟩

theorem C1_witness :
    (request_with_validation jlC1 baseC1 2 oracleC1).success = true ∧
      (request_with_validation jlC1 baseC1 2 oracleC1).payload
        = some (validate_payload tmPayloadC1).2 := by
  constructor
  · exact (C1_success_iff_some_attempt_validates.1 jlC1 baseC1 2
      oracleC1).mpr ⟨1, by decide, by decide, by decide⟩
  · exact (C1_success_iff_some_attempt_validates.2.1 jlC1 baseC1 2 oracleC1
      1 "payload two" tmPayloadC1 (by decide) (by decide) (by decide)
      (by rfl) (by decide)).1

/-- C2: for every conversation and attempt budget, a transport error or a
deadline expiry on attempt N (all earlier attempts being content failures)
makes the orchestrator terminate immediately with a failure result carrying
a populated error, having made exactly N+1 completion calls - no retry ever
follows a fatal outcome; in particular a first-attempt timeout yields a
fatal failure after exactly one completion call. -/
theorem C2_fatal_terminates_immediately :
    (∀ (jl : Jloads) (base : List Message) (n : Nat)
        (oracle : Nat → Outcome) (N : Nat),
        N < n →
        (∀ j, j < N → contentFailure jl (oracle j) = true) →
        fatalOutcome (oracle N) = true →
          (request_with_validation jl base n oracle).success = false ∧
            (request_with_validation jl base n oracle).error
              = fatalErrOf (oracle N) ∧
            (request_with_validation jl base n oracle).error ≠ none ∧
            (request_with_validation jl base n oracle).calls = N + 1)
    ∧ (request_with_validation jlC1 baseC1 2 oracleC2).success = false
    ∧ (request_with_validation jlC1 baseC1 2 oracleC2).error
        = some .ollamaTimeout
    ∧ (request_with_validation jlC1 baseC1 2 oracleC2).calls = 1 := by
  refine ⟨?_, by decide, by decide, by decide⟩
  intro jl base n oracle N hN hall hf
  have h := runLoop_fatal jl n oracle
    { messages := base, last_output := "", error_message := none,
      calls := 0, retries := 0 } N hN hall hf
  simp only [request_with_validation]
  refine ⟨h.1, h.2.1, ?_, ?_⟩
  · rw [h.2.1]
    cases ho : oracle N with
    | timeout => simp [fatalErrOf]
    | failed e => simp [fatalErrOf]
    | completion c => rw [ho] at hf; simp [fatalOutcome] at hf
  · rw [h.2.2.2]
    show 0 + N + 1 = N + 1
    omega

theorem C2_witness :
    (request_with_validation jlC1 baseC1 2 oracleC2).error
        = fatalErrOf (oracleC2 0) ∧
      (request_with_validation jlC1 baseC1 2 oracleC2).calls = 0 + 1 := by
  have h := C2_fatal_terminates_immediately.1 jlC1 baseC1 2 oracleC2 0
    (by decide) (fun j hj => absurd hj (by omega)) (by decide)
  exact ⟨h.2.1, h.2.2.2⟩

/-- C3: when every attempt is a content failure (parse or validation), the
orchestrator returns failure carrying the stripped text of the last attempt
and the last diagnostic; it never reports success with no payload or a
payload on failure (whenever success is false the payload is `None`); on
the concrete sequence [invalid JSON, invalid JSON] with two attempts the
returned raw text is the second attempt output. -/
theorem C3_exhausted_returns_last_raw_and_diag :
    (∀ (jl : Jloads) (base : List Message) (n : Nat)
        (oracle : Nat → Outcome),
        0 < n →
        (∀ i, i < n → contentFailure jl (oracle i) = true) →
        ∃ content, oracle (n - 1) = .completion content ∧
          (request_with_validation jl base n oracle).success = false ∧
          (request_with_validation jl base n oracle).payload = none ∧
          (request_with_validation jl base n oracle).rawOutput
            = pyStrip content ∧
          (request_with_validation jl base n oracle).error
            = outcomeDiag jl (oracle (n - 1)))
    ∧ (∀ (jl : Jloads) (base : List Message) (n : Nat)
        (oracle : Nat → Outcome),
        (request_with_validation jl base n oracle).success = false →
        (request_with_validation jl base n oracle).payload = none)
    ∧ (request_with_validation jlC3 baseC1 2 oracleC3).success = false
    ∧ (request_with_validation jlC3 baseC1 2 oracleC3).rawOutput
        = "bad two"
    ∧ (request_with_validation jlC3 baseC1 2 oracleC3).error
        = some (.notValidJSON "Expecting value") := by
  refine ⟨?_, ?_, by decide, by decide, by decide⟩
  · intro jl base n oracle hn hall
    simp only [request_with_validation]
    obtain ⟨content, h0, h1, h2, h3, h4, h5⟩ :=
      runLoop_exhausted jl n oracle
        { messages := base, last_output := "", error_message := none,
          calls := 0, retries := 0 } hn hall
    exact ⟨content, h0, h1, h2, h3, h4⟩
  · intro jl base n oracle h
    exact runLoop_payload_none jl n oracle _ h

theorem C3_witness :
    ∃ content, oracleC3 1 = .completion content ∧
      (request_with_validation jlC3 baseC1 2 oracleC3).success = false ∧
      (request_with_validation jlC3 baseC1 2 oracleC3).payload = none ∧
      (request_with_validation jlC3 baseC1 2 oracleC3).rawOutput
        = pyStrip content ∧
      (request_with_validation jlC3 baseC1 2 oracleC3).error
        = outcomeDiag jlC3 (oracleC3 1) :=
  C3_exhausted_returns_last_raw_and_diag.1 jlC3 baseC1 2 oracleC3
    (by decide) (by decide)

/-- C4 counterexample: the claim that the vector checker accepts exactly
finite-valued vectors is false on the code - `is_vector` accepts a mapping
whose x value is the float infinity, and one whose x value is the string
nan, while the spec-side finite-vector predicate rejects both. -/
theorem C4_counterexample :
    is_vector vecInf = true ∧ isFiniteVector3 vecInf = false ∧
      is_vector vecNan = true ∧ isFiniteVector3 vecNan = false := by
  exact ⟨by decide, by decide, by decide, by decide⟩

/-- C4 (amended): the vector checker accepts a value exactly when it is a
mapping containing all three keys x, y, z whose values are each parseable
as a number by `float(...)` - numeric-looking strings such as "1.5" are
accepted, but so are NaN and the infinities, whether as float values or as
strings; in particular it accepts {x:1,y:2,z:3} and {x:"1.5",y:0,z:-2} and
rejects {x:1,y:2} and {x:"a",y:0,z:0}. -/
theorem C4_vector_accepts_any_parseable_number :
    (∀ v, is_vector v = true ↔ vector3Amended v)
      ∧ is_vector vecEx1 = true ∧ is_vector vecEx2 = true
      ∧ is_vector vecEx3 = false ∧ is_vector vecEx4 = false := by
  exact ⟨is_vector_iff_amended, by decide, by decide, by decide, by decide⟩

/-- C5: command-name matching is case-insensitive - whenever the command
field is a string whose lower-casing is in the registry, the validator
passes the registry lookup (it never produces an unknown-command
diagnostic) and writes the lower-cased name back into the payload; in
particular the payload with command "Spawn_Object" and primitive_type
"Cube" validates successfully with the command normalized to
spawn_object. -/
theorem C5_command_matching_case_insensitive :
    (∀ (d : List (String × PyVal)) (s : String),
        d.lookup "command" = some (.vStr s) →
        ALLOWED_COMMANDS.contains (pyLower s) = true →
          (validate_payload (.vDict d)).2
              = .vDict (dset d "command" (.vStr (pyLower s))) ∧
            ∀ c, (validate_payload (.vDict d)).1.2
              ≠ some (.unknownCommand c))
    ∧ validate_payload (.vDict [("command", .vStr "Spawn_Object"),
          ("primitive_type", .vStr "Cube")])
        = ((true, none), .vDict [("command", .vStr "spawn_object"),
            ("primitive_type", .vStr "Cube")]) := by
  constructor
  · intro d s hc ha
    have hs : ¬ s = "" := by
      intro hempty
      subst hempty
      rw [show pyLower "" = "" from rfl] at ha
      exact absurd ha (by decide)
    have hget : dget d "command" = .vStr s := by simp [dget, hc]
    exact validate_payload_dispatch d s hget hs (by simpa using ha)
  · rfl

theorem C5_witness :
    (validate_payload (.vDict [("command", .vStr "Rotate_Mesh")])).2
        = .vDict (dset [("command", .vStr "Rotate_Mesh")] "command"
            (.vStr (pyLower "Rotate_Mesh"))) ∧
      ∀ c, (validate_payload
          (.vDict [("command", .vStr "Rotate_Mesh")])).1.2
        ≠ some (.unknownCommand c) :=
  C5_command_matching_case_insensitive.1 [("command", .vStr "Rotate_Mesh")]
    "Rotate_Mesh" (by rfl) (by decide)

/-- C6: the command name "unknown" is not in the allow-list, so every
payload whose command field is the string "unknown" fails validation with
the unknown-command diagnostic; inside a run this failure is a recoverable
content failure, so it consumes a retry attempt (both attempts of a
two-attempt budget are spent) instead of terminating the run cleanly. -/
theorem C6_unknown_command_rejected :
    ALLOWED_COMMANDS.contains "unknown" = false
    ∧ (∀ d : List (String × PyVal),
        d.lookup "command" = some (.vStr "unknown") →
          validate_payload (.vDict d)
            = ((false, some (.unknownCommand "unknown")), .vDict d))
    ∧ (request_with_validation jlC6 baseC1 2 oracleC6).success = false
    ∧ (request_with_validation jlC6 baseC1 2 oracleC6).calls = 2
    ∧ (request_with_validation jlC6 baseC1 2 oracleC6).error
        = some (.invalidPayload (some (.unknownCommand "unknown"))) := by
  refine ⟨by decide, ?_, by decide, by decide, by decide⟩
  intro d hc
  have hget : dget d "command" = .vStr "unknown" := by simp [dget, hc]
  have h2 : pyLower "unknown" ∉ ALLOWED_COMMANDS := by decide
  simp [validate_payload, hget, h2]

theorem C6_witness :
    validate_payload unknownPayload
      = ((false, some (.unknownCommand "unknown")), unknownPayload) :=
  C6_unknown_command_rejected.2.1
    [("command", .vStr "unknown"), ("reason", .vStr "need clarification")]
    (by rfl)

/-- C7: within one orchestration run the conversation only grows by
corrective pairs: the final working conversation is exactly the initial
conversation followed by the flattening of a list of pairs, one pair per
corrective retry (the pair count equals the retry count), each pair being
an assistant turn echoing raw output followed by a user correction turn -
so no turn is ever removed or reordered during a run. -/
theorem C7_corrective_pairs_append_only :
    ∀ (jl : Jloads) (base : List Message) (n : Nat)
      (oracle : Nat → Outcome),
      ∃ pairs : List (Message × Message),
        (request_with_validation jl base n oracle).finalMessages
            = base ++ turnsOf pairs ∧
          (request_with_validation jl base n oracle).retries
            = pairs.length ∧
          ∀ p ∈ pairs, correctivePair p := by
  intro jl base n oracle
  simp only [request_with_validation]
  obtain ⟨pairs, h1, h2, h3⟩ := runLoop_turns jl n oracle
    { messages := base, last_output := "", error_message := none,
      calls := 0, retries := 0 }
  refine ⟨pairs, h1, ?_, h3⟩
  rw [h2]
  show 0 + pairs.length = pairs.length
  omega

theorem C7_witness :
    ∃ pairs : List (Message × Message),
      (request_with_validation jlC1 baseC1 2 oracleC1).finalMessages
          = baseC1 ++ turnsOf pairs ∧
        (request_with_validation jlC1 baseC1 2 oracleC1).retries
          = pairs.length ∧
        ∀ p ∈ pairs, correctivePair p :=
  C7_corrective_pairs_append_only jlC1 baseC1 2 oracleC1

/-- C8: the payload validator is total - for every input value, including
all non-dict values and dicts with fields of every type, the
exception-aware validator returns an ordinary (valid, diagnostic) result
equal to that of the pure validator, and never lets an exception escape
across its boundary. -/
theorem C8_validator_never_raises (v : PyVal) :
    validate_payloadE v = .ok (validate_payload v) :=
  validate_payloadE_ok v

/-- C9: the orchestrator never mutates the caller message-list object: it
allocates a working deep copy, so after a run, for every store, every list
identifier in it and every outcome sequence, the caller list value in the
store is unchanged, and the run result is a function of the list value
only. -/
theorem C9_base_messages_not_mutated :
    ∀ (jl : Jloads) (store : MsgStore) (baseId : Nat) (n : Nat)
      (oracle : Nat → Outcome),
      baseId < store.length →
        (request_with_validation_heap jl store baseId n oracle).2.getD
            baseId [] = store.getD baseId []
        ∧ (request_with_validation_heap jl store baseId n oracle).1
          = request_with_validation jl (store.getD baseId []) n oracle := by
  intro jl store baseId n oracle h
  exact ⟨set_append_getD store _ _ baseId h, rfl⟩

theorem C9_witness :
    (request_with_validation_heap jlC1 [baseC1] 0 2 oracleC1).2.getD 0 []
        = ([baseC1] : MsgStore).getD 0 []
      ∧ (request_with_validation_heap jlC1 [baseC1] 0 2 oracleC1).1
        = request_with_validation jlC1 (([baseC1] : MsgStore).getD 0 [])
            2 oracleC1 :=
  C9_base_messages_not_mutated jlC1 [baseC1] 0 2 oracleC1 (by decide)

/-- C10: the validator mutates at most the command key of its payload -
for every dict and every other key the returned payload is a dict agreeing
with the input on that key; whenever the lower-cased command passes the
allow-list the lower-cased name is written back even when a subsequent
required-field check fails, as the concrete spawn_object payload without
primitive_type shows; and non-dict payloads are returned unchanged. -/
theorem C10_validator_mutates_only_command :
    (∀ (d : List (String × PyVal)) (k : String), k ≠ "command" →
        ∃ d2, (validate_payload (.vDict d)).2 = .vDict d2
          ∧ d2.lookup k = d.lookup k)
    ∧ (∀ (d : List (String × PyVal)) (s : String),
        dget d "command" = .vStr s → ¬ s = "" →
        pyLower s ∈ ALLOWED_COMMANDS →
          (validate_payload (.vDict d)).2
            = .vDict (dset d "command" (.vStr (pyLower s))))
    ∧ validate_payload (.vDict [("command", .vStr "Spawn_Object")])
        = ((false, some .spawnRequiresPrimitiveType),
            .vDict [("command", .vStr "spawn_object")]) := by
  refine ⟨?_, ?_, by rfl⟩
  · intro d k hk
    exact validate_payload_not_mutating_other_keys d k hk
  · intro d s hc hs ha
    exact (validate_payload_dispatch d s hc hs ha).1

theorem C10_witness :
    ∃ d2, (validate_payload
        (.vDict [("command", .vStr "Spawn_Object")])).2 = .vDict d2
      ∧ d2.lookup "primitive_type"
        = ([("command", .vStr "Spawn_Object")] :
            List (String × PyVal)).lookup "primitive_type" :=
  C10_validator_mutates_only_command.1 [("command", .vStr "Spawn_Object")]
    "primitive_type" (by decide)
